import Mathlib

/-!
Verification of the serve-code encoder and round-control logic of the
pikaserve-encoder repository (a Pikachu Volleyball fork that records the
human player's per-tick inputs and compresses them into a "serve code").

The definitions below are shallow embeddings of the JavaScript source:
* `encodeUserInput`, `encodeActList`, `concatListAsString` from the
  controller module (pikavolley.js),
* the log/merge/flush slice of `PikachuVolleyball.round` (`roundLogStep`),
* the scoring/match-end slice of `round` (`scoringStep`),
* the edge-triggered power-hit resolution from `keyboard.js` (`getInput`).
-/

/-- Embedding of `PikaUserInput` (physics.js): one per-tick input snapshot.
JS numbers here only ever hold small integers, so fields are `Int`. -/
structure PikaUserInput where
  xDirection : Int
  yDirection : Int
  powerHit : Int
deriving DecidableEq, Repr

/-- Embedding of `encodeUserInput(userInput, playerNum)` (pikavolley.js
lines 610-697).  The JS function is an if-chain that returns a token string,
or `undefined` when every guard fails (the fall-through); `Option.none`
models that `undefined`.  Any `playerNum` other than `1` takes the side-2
branch, exactly as the JS `if (playerNum == 1) ... else ...` does. -/
def encodeUserInput (userInput : PikaUserInput) (playerNum : Nat) : Option String :=
  if playerNum = 1 then
    if userInput.powerHit = 1 then
      if userInput.xDirection = -1 ∧ userInput.yDirection = -1 then some "-ULH/"
      else if userInput.xDirection = -1 ∧ userInput.yDirection = 0 then some "-LH/"
      else if userInput.xDirection = -1 ∧ userInput.yDirection = 1 then some "-DLH/"
      else if userInput.xDirection = 0 ∧ userInput.yDirection = -1 then some "-UH/"
      else if userInput.xDirection = 0 ∧ userInput.yDirection = 0 then some "-H/"
      else if userInput.xDirection = 0 ∧ userInput.yDirection = 1 then some "-DH/"
      else if userInput.xDirection = 1 ∧ userInput.yDirection = -1 then some "-URH/"
      else if userInput.xDirection = 1 ∧ userInput.yDirection = 0 then some "-RH/"
      else if userInput.xDirection = 1 ∧ userInput.yDirection = 1 then some "-DRH/"
      else none
    else if userInput.powerHit = 0 then
      if userInput.xDirection = -1 ∧ userInput.yDirection = -1 then some "-UL/"
      else if userInput.xDirection = -1 ∧ userInput.yDirection = 0 then some "-L/"
      else if userInput.xDirection = -1 ∧ userInput.yDirection = 1 then some "-DL/"
      else if userInput.xDirection = 0 ∧ userInput.yDirection = -1 then some "-U/"
      else if userInput.xDirection = 0 ∧ userInput.yDirection = 0 then some "-/"
      else if userInput.xDirection = 0 ∧ userInput.yDirection = 1 then some "-D/"
      else if userInput.xDirection = 1 ∧ userInput.yDirection = -1 then some "-UR/"
      else if userInput.xDirection = 1 ∧ userInput.yDirection = 0 then some "-R/"
      else if userInput.xDirection = 1 ∧ userInput.yDirection = 1 then some "-DR/"
      else none
    else none
  else
    if userInput.powerHit = 1 then
      if userInput.xDirection = -1 ∧ userInput.yDirection = -1 then some "-/ULH"
      else if userInput.xDirection = -1 ∧ userInput.yDirection = 0 then some "-/LH"
      else if userInput.xDirection = -1 ∧ userInput.yDirection = 1 then some "-/DLH"
      else if userInput.xDirection = 0 ∧ userInput.yDirection = -1 then some "-/UH"
      else if userInput.xDirection = 0 ∧ userInput.yDirection = 0 then some "-/H"
      else if userInput.xDirection = 0 ∧ userInput.yDirection = 1 then some "-/DH"
      else if userInput.xDirection = 1 ∧ userInput.yDirection = -1 then some "-/URH"
      else if userInput.xDirection = 1 ∧ userInput.yDirection = 0 then some "-/RH"
      else if userInput.xDirection = 1 ∧ userInput.yDirection = 1 then some "-/DRH"
      else none
    else if userInput.powerHit = 0 then
      if userInput.xDirection = -1 ∧ userInput.yDirection = -1 then some "-/UL"
      else if userInput.xDirection = -1 ∧ userInput.yDirection = 0 then some "-/L"
      else if userInput.xDirection = -1 ∧ userInput.yDirection = 1 then some "-/DL"
      else if userInput.xDirection = 0 ∧ userInput.yDirection = -1 then some "-/U"
      else if userInput.xDirection = 0 ∧ userInput.yDirection = 0 then some "-/"
      else if userInput.xDirection = 0 ∧ userInput.yDirection = 1 then some "-/D"
      else if userInput.xDirection = 1 ∧ userInput.yDirection = -1 then some "-/UR"
      else if userInput.xDirection = 1 ∧ userInput.yDirection = 0 then some "-/R"
      else if userInput.xDirection = 1 ∧ userInput.yDirection = 1 then some "-/DR"
      else none
    else none

/-- A valid input snapshot: directions in `{-1,0,1}`, power hit in `{0,1}`
(spec section 3; the boundary validates these before the core sees them). -/
def ValidInput (i : PikaUserInput) : Prop :=
  (i.xDirection = -1 ∨ i.xDirection = 0 ∨ i.xDirection = 1) ∧
  (i.yDirection = -1 ∨ i.yDirection = 0 ∨ i.yDirection = 1) ∧
  (i.powerHit = 0 ∨ i.powerHit = 1)

instance (i : PikaUserInput) : Decidable (ValidInput i) := by
  unfold ValidInput; infer_instance

/-- The 18 valid input combinations, enumerated. -/
def validInputList : List PikaUserInput :=
  [⟨-1, -1, 0⟩, ⟨-1, -1, 1⟩, ⟨-1, 0, 0⟩, ⟨-1, 0, 1⟩, ⟨-1, 1, 0⟩, ⟨-1, 1, 1⟩,
   ⟨0, -1, 0⟩, ⟨0, -1, 1⟩, ⟨0, 0, 0⟩, ⟨0, 0, 1⟩, ⟨0, 1, 0⟩, ⟨0, 1, 1⟩,
   ⟨1, -1, 0⟩, ⟨1, -1, 1⟩, ⟨1, 0, 0⟩, ⟨1, 0, 1⟩, ⟨1, 1, 0⟩, ⟨1, 1, 1⟩]

lemma mem_validInputList_of_valid {i : PikaUserInput} (h : ValidInput i) :
    i ∈ validInputList := by
  obtain ⟨x, y, p⟩ := i
  obtain ⟨hx, hy, hp⟩ := h
  simp only at hx hy hp
  rcases hx with hx | hx | hx <;> rcases hy with hy | hy | hy <;>
    rcases hp with hp | hp <;> subst hx <;> subst hy <;> subst hp <;> decide

/-- Embedding of `encodeActList(code, playerNum)` (pikavolley.js lines
710-717): tokenize every snapshot of the log in order. -/
def encodeActList (code : List PikaUserInput) (playerNum : Nat) : List (Option String) :=
  code.map (fun i => encodeUserInput i playerNum)

/-- Loop body of `concatListAsString` (pikavolley.js lines 726-737): walk the
remaining array with the current run value, its count so far, and the result
accumulated for the already-closed runs.  `render` models JS string coercion
when a value is concatenated onto the result (`result += current + count`). -/
def concatGo {α : Type} [DecidableEq α] (render : α → String) :
    List α → α → Nat → String → String
  | [], current, count, result => result ++ render current ++ toString count
  | x :: xs, current, count, result =>
    if x = current then concatGo render xs current (count + 1) result
    else concatGo render xs x 1 (result ++ render current ++ toString count)

/-- Embedding of `concatListAsString(arr)` (pikavolley.js lines 719-740):
run-length compress the array, emitting `<value><count>` per maximal run; an
empty array yields the empty string. -/
def concatListAsString {α : Type} [DecidableEq α] (render : α → String) :
    List α → String
  | [] => ""
  | a :: rest => concatGo render rest a 1 ""

/-- JS string coercion of an array entry that may be `undefined`: a token
string coerces to itself, `undefined` coerces to the string "undefined". -/
def optTokenToString : Option String → String
  | some s => s
  | none => "undefined"

/-- The serve-code string built at flush time in `round` (pikavolley.js
lines 402-411): `concatListAsString(encodeActList(ActList, playerNum))`. -/
def serveCode (log : List PikaUserInput) (playerNum : Nat) : String :=
  concatListAsString optTokenToString (encodeActList log playerNum)

/-- The string actually handed to the display surface (pikavolley.js line
412): `MsgOutput.slice(1)`.  Every serve-code character is ASCII, so slicing
off one UTF-16 code unit is dropping the first character. -/
def presentedServeCode (log : List PikaUserInput) (playerNum : Nat) : String :=
  String.mk ((serveCode log playerNum).data.drop 1)

/-- The example log of claim C1: 3 ticks of (-1,0,0) then 2 ticks of (0,0,1). -/
def exampleLog : List PikaUserInput :=
  List.replicate 3 ⟨-1, 0, 0⟩ ++ List.replicate 2 ⟨0, 0, 1⟩

/-- C1: the 5-snapshot side-1 log of 3 ticks of (x=-1,y=0,hit=0) followed by
2 ticks of (x=0,y=0,hit=1) encodes to the serve-code string "-L/3-H/2". -/
theorem c1_example_serve_code : serveCode exampleLog 1 = "-L/3-H/2" := by
  decide

lemma tokenize_ball_side1 :
    ∀ a ∈ validInputList, ∀ b ∈ validInputList,
      (encodeUserInput a 1).isSome = true ∧
      (encodeUserInput a 1 = encodeUserInput b 1 ↔ a = b) := by
  decide

lemma tokenize_ball_side2 :
    ∀ a ∈ validInputList, ∀ b ∈ validInputList,
      (encodeUserInput a 2).isSome = true ∧
      (encodeUserInput a 2 = encodeUserInput b 2 ↔ a = b) := by
  decide

/-- C2: for each side and each of the 18 valid input combinations,
`encodeUserInput` returns a defined token (`isSome`, i.e. the undefined
fall-through is unreachable on the valid domain), and within one side the
token determines the input combination (injectivity). -/
theorem c2_tokenize_total_injective (side : Nat) (hs : side = 1 ∨ side = 2)
    (i j : PikaUserInput) (hi : ValidInput i) (hj : ValidInput j) :
    (encodeUserInput i side).isSome = true ∧
    (encodeUserInput i side = encodeUserInput j side ↔ i = j) := by
  have hi' := mem_validInputList_of_valid hi
  have hj' := mem_validInputList_of_valid hj
  rcases hs with hs | hs <;> subst hs
  · exact tokenize_ball_side1 i hi' j hj'
  · exact tokenize_ball_side2 i hi' j hj'

theorem c2_tokenize_total_injective_witness :
    (encodeUserInput ⟨-1, 0, 0⟩ 1).isSome = true ∧
    (encodeUserInput ⟨-1, 0, 0⟩ 1 = encodeUserInput ⟨0, 0, 1⟩ 1 ↔
      (⟨-1, 0, 0⟩ : PikaUserInput) = ⟨0, 0, 1⟩) :=
  c2_tokenize_total_injective 1 (Or.inl rfl) ⟨-1, 0, 0⟩ ⟨0, 0, 1⟩
    (by decide) (by decide)

/-- C3 counterexample: the no-direction/no-hit snapshot (0,0,0) produces the
very same token (a dash followed by a slash) on side 1 and on side 2, so the
side-1 and side-2 token strings are not distinct for every valid snapshot. -/
theorem c3_counterexample :
    encodeUserInput ⟨0, 0, 0⟩ 1 = some "-/" ∧
    encodeUserInput ⟨0, 0, 0⟩ 2 = some "-/" ∧
    encodeUserInput ⟨0, 0, 0⟩ 1 = encodeUserInput ⟨0, 0, 0⟩ 2 := by
  decide

lemma side_tokens_differ_ball :
    ∀ a ∈ validInputList, a = ⟨0, 0, 0⟩ ∨
      decide (encodeUserInput a 1 = encodeUserInput a 2) = false := by
  decide

/-- C3 amended: for every valid snapshot other than (0,0,0), the side-1
token and the side-2 token are distinct strings (side 1 carries the symbol
before the "/" separator, side 2 after); the single exception is the
no-direction/no-hit snapshot, whose token (dash then slash) is shared. -/
theorem c3_side_tokens_differ (i : PikaUserInput) (hv : ValidInput i)
    (hne : i ≠ ⟨0, 0, 0⟩) :
    decide (encodeUserInput i 1 = encodeUserInput i 2) = false := by
  have hmem := mem_validInputList_of_valid hv
  rcases side_tokens_differ_ball i hmem with h | h
  · exact absurd h hne
  · exact h

theorem c3_side_tokens_differ_witness :
    decide (encodeUserInput ⟨-1, 0, 0⟩ 1 = encodeUserInput ⟨-1, 0, 0⟩ 2) = false :=
  c3_side_tokens_differ ⟨-1, 0, 0⟩ (by decide) (by decide)

lemma concatGo_replicate {α : Type} [DecidableEq α] (render : α → String)
    (t : α) : ∀ (k count : Nat) (res : String),
    concatGo render (List.replicate k t) t count res =
      res ++ render t ++ toString (count + k) := by
  intro k
  induction k with
  | zero => intro count res; simp [concatGo]
  | succ m ih =>
    intro count res
    rw [List.replicate_succ]
    show concatGo render (t :: List.replicate m t) t count res = _
    rw [concatGo, if_pos rfl, ih]
    congr 2
    omega

lemma natToString_one : toString (1 : Nat) = "1" := rfl

lemma concatGo_singleton_runs {α : Type} [DecidableEq α] (render : α → String) :
    ∀ (xs : List α) (cur : α) (res : String),
    List.Chain' (fun a b => a ≠ b) (cur :: xs) →
    concatGo render xs cur 1 res =
      res ++ (cur :: xs).foldr (fun t acc => render t ++ "1" ++ acc) "" := by
  intro xs
  induction xs with
  | nil =>
    intro cur res _
    show res ++ render cur ++ toString 1 = res ++ (render cur ++ "1" ++ "")
    rw [natToString_one, String.append_empty, String.append_assoc]
  | cons x xs ih =>
    intro cur res h
    rw [List.chain'_cons] at h
    obtain ⟨hne, hchain⟩ := h
    show concatGo render (x :: xs) cur 1 res = _
    rw [concatGo, if_neg (fun hxy => hne hxy.symm), ih x _ hchain]
    show res ++ render cur ++ toString 1 ++ _ = _
    simp only [List.foldr_cons, natToString_one]
    rw [String.append_assoc, String.append_assoc, String.append_assoc,
      String.append_assoc]

/-- C4: run-length compression of a token list.  A list of N identical
tokens (N at least 1) compresses to exactly one run, the token followed by
the decimal count N; a list in which no two adjacent tokens are equal
compresses to one run per token, each with an explicit count of 1, in the
original order. -/
theorem c4_run_length (t : String) (N : Nat) (hN : 1 ≤ N)
    (arr : List String) (harr : List.Chain' (fun a b => a ≠ b) arr) :
    concatListAsString (fun s => s) (List.replicate N t) = t ++ toString N ∧
    concatListAsString (fun s => s) arr =
      arr.foldr (fun tok acc => tok ++ "1" ++ acc) "" := by
  constructor
  · obtain ⟨m, rfl⟩ : ∃ m, N = m + 1 := ⟨N - 1, by omega⟩
    rw [List.replicate_succ]
    show concatGo (fun s => s) (List.replicate m t) t 1 "" = _
    rw [concatGo_replicate]
    rw [String.empty_append]
    congr 2
    omega
  · cases arr with
    | nil => rfl
    | cons a rest =>
      show concatGo (fun s => s) rest a 1 "" = _
      rw [concatGo_singleton_runs (fun s => s) rest a "" harr]
      rw [String.empty_append]

theorem c4_run_length_witness :
    concatListAsString (fun s => s) (List.replicate 3 "-L/") = "-L/" ++ toString 3 ∧
    concatListAsString (fun s => s) ["-L/", "-H/"] =
      (["-L/", "-H/"] : List String).foldr (fun tok acc => tok ++ "1" ++ acc) "" :=
  c4_run_length "-L/" 3 (by decide) ["-L/", "-H/"]
    (by refine List.chain'_cons.mpr ⟨by decide, ?_⟩; exact List.chain'_singleton _)

/-- The 18 token strings a given side can emit (image of the tokenizer over
the valid input domain). -/
def sideTokens (side : Nat) : List String :=
  validInputList.filterMap (fun i => encodeUserInput i side)

/-- Concatenation of runs, each rendered as the token followed by its
decimal count, in order and with no separator between runs. -/
def renderRuns : List (String × Nat) → String
  | [] => ""
  | r :: rest => r.1 ++ toString r.2 ++ renderRuns rest

/-- A string of the serve-code text format of the spec: a concatenation of
runs, each a side token followed by a positive decimal count. -/
def IsRunConcat (side : Nat) (s : String) : Prop :=
  ∃ runs : List (String × Nat),
    (∀ r ∈ runs, r.1 ∈ sideTokens side ∧ 1 ≤ r.2) ∧ s = renderRuns runs

lemma concatGo_runconcat {α : Type} [DecidableEq α] (render : α → String)
    (S : List String) :
    ∀ (xs : List α) (cur : α) (count : Nat) (res : String), 1 ≤ count →
      render cur ∈ S → (∀ x ∈ xs, render x ∈ S) →
      ∃ runs : List (String × Nat), runs ≠ [] ∧
        (∀ r ∈ runs, r.1 ∈ S ∧ 1 ≤ r.2) ∧
        concatGo render xs cur count res = res ++ renderRuns runs := by
  intro xs
  induction xs with
  | nil =>
    intro cur count res hc hcur _
    refine ⟨[(render cur, count)], by simp, ?_, ?_⟩
    · intro r hr
      rw [List.mem_singleton] at hr
      subst hr
      exact ⟨hcur, hc⟩
    · show res ++ render cur ++ toString count = res ++ (render cur ++ toString count ++ "")
      rw [String.append_empty, String.append_assoc]
  | cons x xs ih =>
    intro cur count res hc hcur hxs
    by_cases hx : x = cur
    · subst hx
      obtain ⟨runs, hne, hmem, heq⟩ :=
        ih x (count + 1) res (by omega) hcur (fun a ha => hxs a (List.mem_cons_of_mem x ha))
      refine ⟨runs, hne, hmem, ?_⟩
      rw [concatGo, if_pos rfl, heq]
    · obtain ⟨runs, _, hmem, heq⟩ :=
        ih x 1 (res ++ render cur ++ toString count) (by omega)
          (hxs x (List.mem_cons_self x xs)) (fun a ha => hxs a (List.mem_cons_of_mem x ha))
      refine ⟨(render cur, count) :: runs, by simp, ?_, ?_⟩
      · intro r hr
        rw [List.mem_cons] at hr
        rcases hr with hr | hr
        · subst hr
          exact ⟨hcur, hc⟩
        · exact hmem r hr
      · rw [concatGo, if_neg hx, heq]
        show _ = res ++ (render cur ++ toString count ++ renderRuns runs)
        rw [String.append_assoc, String.append_assoc, String.append_assoc]

lemma token_mem_sideTokens1 :
    ∀ a ∈ validInputList, optTokenToString (encodeUserInput a 1) ∈ sideTokens 1 := by
  decide

lemma token_mem_sideTokens2 :
    ∀ a ∈ validInputList, optTokenToString (encodeUserInput a 2) ∈ sideTokens 2 := by
  decide

lemma sideTokens1_head : ∀ t ∈ sideTokens 1, t.data.head? = some '-' := by
  decide

lemma sideTokens2_head : ∀ t ∈ sideTokens 2, t.data.head? = some '-' := by
  decide

lemma rendered_token_mem {i : PikaUserInput} {side : Nat}
    (hs : side = 1 ∨ side = 2) (hv : ValidInput i) :
    optTokenToString (encodeUserInput i side) ∈ sideTokens side := by
  have hmem := mem_validInputList_of_valid hv
  rcases hs with hs | hs <;> subst hs
  · exact token_mem_sideTokens1 i hmem
  · exact token_mem_sideTokens2 i hmem

lemma serveCode_runconcat_strong (log : List PikaUserInput) (side : Nat)
    (hs : side = 1 ∨ side = 2) (hv : ∀ i ∈ log, ValidInput i) (hne : log ≠ []) :
    ∃ runs : List (String × Nat), runs ≠ [] ∧
      (∀ r ∈ runs, r.1 ∈ sideTokens side ∧ 1 ≤ r.2) ∧
      serveCode log side = renderRuns runs := by
  cases log with
  | nil => exact absurd rfl hne
  | cons i rest =>
    obtain ⟨runs, hrne, hmem, heq⟩ :=
      concatGo_runconcat optTokenToString (sideTokens side)
        (encodeActList rest side) (encodeUserInput i side) 1 "" (by omega)
        (rendered_token_mem hs (hv i (List.mem_cons_self i rest)))
        (by
          intro x hx
          rw [encodeActList, List.mem_map] at hx
          obtain ⟨j, hj, rfl⟩ := hx
          exact rendered_token_mem hs (hv j (List.mem_cons_of_mem i hj)))
    refine ⟨runs, hrne, hmem, ?_⟩
    show concatGo optTokenToString (encodeActList rest side) (encodeUserInput i side) 1 "" = _
    rw [heq, String.empty_append]

lemma head_dash_exists {s : String} (h : s.data.head? = some '-') :
    ∃ cs, s.data = '-' :: cs := by
  cases hd : s.data with
  | nil => rw [hd] at h; exact absurd h (by simp)
  | cons c cs =>
    rw [hd] at h
    simp only [List.head?_cons, Option.some.injEq] at h
    exact ⟨cs, by rw [h]⟩

lemma renderRuns_cons_head {r : String × Nat} {rest : List (String × Nat)}
    (h : r.1.data.head? = some '-') :
    (renderRuns (r :: rest)).data.head? = some '-' := by
  obtain ⟨cs, hcs⟩ := head_dash_exists h
  show (r.1 ++ toString r.2 ++ renderRuns rest).data.head? = some '-'
  rw [String.data_append, String.data_append, hcs]
  simp

/-- C5 corrected claim: for a valid nonempty log and a side in {1,2}, the
full string `concatListAsString` builds is a concatenation of runs
`<token><decimalCount>` with every token among the 18 side tokens, and the
string handed to the display surface is that string with its first character
(the leading dash of the first run's token) removed. -/
theorem c5_presented_serve_code (log : List PikaUserInput) (side : Nat)
    (hs : side = 1 ∨ side = 2) (hv : ∀ i ∈ log, ValidInput i) (hne : log ≠ []) :
    IsRunConcat side (serveCode log side) ∧
    (serveCode log side).data = '-' :: (presentedServeCode log side).data := by
  obtain ⟨runs, hrne, hmem, heq⟩ := serveCode_runconcat_strong log side hs hv hne
  refine ⟨⟨runs, hmem, heq⟩, ?_⟩
  cases runs with
  | nil => exact absurd rfl hrne
  | cons r rest =>
    have hr : r.1 ∈ sideTokens side := (hmem r (List.mem_cons_self r rest)).1
    have hhead : r.1.data.head? = some '-' := by
      rcases hs with hs | hs <;> subst hs
      · exact sideTokens1_head r.1 hr
      · exact sideTokens2_head r.1 hr
    have hsc : (serveCode log side).data.head? = some '-' := by
      rw [heq]
      exact renderRuns_cons_head hhead
    obtain ⟨cs, hcs⟩ := head_dash_exists hsc
    show (serveCode log side).data = '-' :: ((serveCode log side).data.drop 1)
    rw [hcs]
    rfl

theorem c5_presented_serve_code_witness :
    IsRunConcat 1 (serveCode [⟨0, 0, 1⟩] 1) ∧
    (serveCode [⟨0, 0, 1⟩] 1).data = '-' :: (presentedServeCode [⟨0, 0, 1⟩] 1).data :=
  c5_presented_serve_code [⟨0, 0, 1⟩] 1 (Or.inl rfl) (by decide) (by decide)

/-- C5 counterexample: the string the core hands to the display surface is
the run concatenation with its first character sliced off, so it is NOT
itself a concatenation of `<token><decimalDigits>` runs over the 18 side
tokens: for the one-tick log [(0,0,0)] on side 1 the presented string is
"/1", and every nonempty run concatenation starts with a dash. -/
theorem c5_counterexample :
    presentedServeCode [⟨0, 0, 0⟩] 1 = "/1" ∧
    ¬ IsRunConcat 1 (presentedServeCode [⟨0, 0, 0⟩] 1) := by
  have hpres : presentedServeCode [⟨0, 0, 0⟩] 1 = "/1" := by decide
  refine ⟨hpres, ?_⟩
  rw [hpres]
  rintro ⟨runs, hmem, heq⟩
  cases runs with
  | nil => exact absurd heq (by decide)
  | cons r rest =>
    have hr : r.1 ∈ sideTokens 1 := (hmem r (List.mem_cons_self r rest)).1
    have hhead : r.1.data.head? = some '-' := sideTokens1_head r.1 hr
    have hstart : ("/1" : String).data.head? = some '-' := by
      rw [heq]
      exact renderRuns_cons_head hhead
    exact absurd hstart (by decide)

/-- JS logical-or `a || b` on the small integers stored in keyboard fields:
`0` is the only falsy value that occurs, so the result is `b` when `a` is
`0` and `a` otherwise (pikavolley.js lines 367-382). -/
def jsOr (a b : Int) : Int :=
  if a = 0 then b else a

/-- The snapshot `round` pushes onto `ActList` (pikavolley.js lines
367-395).  When player 1 is computer-controlled, keyboard 2's fields are
first overwritten with `kb1 || kb2` per field and `player2Input` (the merged
keyboard 2) is pushed; when player 2 is computer-controlled, keyboard 1's
fields are overwritten the same way (reading the possibly already-updated
keyboard 2) and `player1Input` is pushed; with two humans, keyboard 1's raw
snapshot is pushed. -/
def recordedInput (p1c p2c : Bool) (kb1 kb2 : PikaUserInput) : PikaUserInput :=
  let kb2m := if p1c then
      (⟨jsOr kb1.xDirection kb2.xDirection, jsOr kb1.yDirection kb2.yDirection,
        jsOr kb1.powerHit kb2.powerHit⟩ : PikaUserInput)
    else kb2
  let kb1m := if p2c then
      (⟨jsOr kb1.xDirection kb2m.xDirection, jsOr kb1.yDirection kb2m.yDirection,
        jsOr kb1.powerHit kb2m.powerHit⟩ : PikaUserInput)
    else kb1
  if p1c then kb2m else kb1m

/-- The Action-Log slice of one `round` tick (pikavolley.js lines 352-414):
if both players are computer-controlled and a power-hit key fired, the state
returns to the intro without touching the log; otherwise exactly one merged
human snapshot is appended, and when the engine reports the ball touching
the ground the whole log is flushed to the encoder (second component) and
cleared (`ActList.length = 0`). -/
def roundLogStep (p1c p2c : Bool) (kb1 kb2 : PikaUserInput) (ballTouch : Bool)
    (log : List PikaUserInput) : List PikaUserInput × Option (List PikaUserInput) :=
  if p1c = true ∧ p2c = true ∧ (kb1.powerHit = 1 ∨ kb2.powerHit = 1) then
    (log, none)
  else
    let log2 := log ++ [recordedInput p1c p2c kb1 kb2]
    if ballTouch = true then ([], some log2) else (log2, none)

/-- Iterate `roundLogStep` over a sequence of ticks on none of which the
ball touches the ground. -/
def runNoTouch (p1c p2c : Bool) (ticks : List (PikaUserInput × PikaUserInput))
    (log : List PikaUserInput) : List PikaUserInput :=
  ticks.foldl (fun l t => (roundLogStep p1c p2c t.1 t.2 false l).1) log

lemma roundLogStep_no_touch (p1c p2c : Bool) (h : ¬(p1c = true ∧ p2c = true))
    (kb1 kb2 : PikaUserInput) (log : List PikaUserInput) :
    (roundLogStep p1c p2c kb1 kb2 false log).1 =
      log ++ [recordedInput p1c p2c kb1 kb2] := by
  rw [roundLogStep, if_neg (fun hc => h ⟨hc.1, hc.2.1⟩)]
  rfl

lemma runNoTouch_length (p1c p2c : Bool) (h : ¬(p1c = true ∧ p2c = true)) :
    ∀ (ticks : List (PikaUserInput × PikaUserInput)) (log : List PikaUserInput),
    (runNoTouch p1c p2c ticks log).length = log.length + ticks.length := by
  intro ticks
  induction ticks with
  | nil => intro log; rfl
  | cons t ts ih =>
    intro log
    show (runNoTouch p1c p2c ts ((roundLogStep p1c p2c t.1 t.2 false log).1)).length = _
    rw [ih, roundLogStep_no_touch p1c p2c h]
    simp
    omega

/-- C6: on every round tick on which the round is not aborted to the intro
(i.e. not both players computer-controlled), exactly one snapshot is
appended to the Action Log, namely the post-merge snapshot of the side whose
isComputer flag is false (player 2's when player 1 is computer-controlled,
otherwise player 1's); consequently after n clean ticks from a cleared log
the log holds n snapshots, and the tick on which the ball touches the
ground flushes a log of exactly n+1 snapshots (the ticks elapsed since the
last clear) and resets it to empty. -/
theorem c6_log_length_invariant (p1c p2c : Bool)
    (h : ¬(p1c = true ∧ p2c = true)) (kb1 kb2 : PikaUserInput)
    (ticks : List (PikaUserInput × PikaUserInput)) (log : List PikaUserInput) :
    (roundLogStep p1c p2c kb1 kb2 false log).1 =
      log ++ [recordedInput p1c p2c kb1 kb2] ∧
    (runNoTouch p1c p2c ticks []).length = ticks.length ∧
    roundLogStep p1c p2c kb1 kb2 true (runNoTouch p1c p2c ticks []) =
      ([], some (runNoTouch p1c p2c ticks [] ++ [recordedInput p1c p2c kb1 kb2])) ∧
    (runNoTouch p1c p2c ticks [] ++ [recordedInput p1c p2c kb1 kb2]).length =
      ticks.length + 1 := by
  refine ⟨roundLogStep_no_touch p1c p2c h kb1 kb2 log, ?_, ?_, ?_⟩
  · rw [runNoTouch_length p1c p2c h]
    simp
  · rw [roundLogStep, if_neg (fun hc => h ⟨hc.1, hc.2.1⟩)]
    rfl
  · rw [List.length_append, runNoTouch_length p1c p2c h]
    simp

theorem c6_log_length_invariant_witness :
    (roundLogStep true false ⟨0, 0, 1⟩ ⟨1, 0, 0⟩ false []).1 =
      [] ++ [recordedInput true false ⟨0, 0, 1⟩ ⟨1, 0, 0⟩] ∧
    (runNoTouch true false [(⟨0, 0, 0⟩, ⟨0, 0, 0⟩)] []).length =
      ([(⟨0, 0, 0⟩, ⟨0, 0, 0⟩)] : List (PikaUserInput × PikaUserInput)).length ∧
    roundLogStep true false ⟨0, 0, 1⟩ ⟨1, 0, 0⟩ true
        (runNoTouch true false [(⟨0, 0, 0⟩, ⟨0, 0, 0⟩)] []) =
      ([], some (runNoTouch true false [(⟨0, 0, 0⟩, ⟨0, 0, 0⟩)] [] ++
        [recordedInput true false ⟨0, 0, 1⟩ ⟨1, 0, 0⟩])) ∧
    (runNoTouch true false [(⟨0, 0, 0⟩, ⟨0, 0, 0⟩)] [] ++
      [recordedInput true false ⟨0, 0, 1⟩ ⟨1, 0, 0⟩]).length =
      ([(⟨0, 0, 0⟩, ⟨0, 0, 0⟩)] : List (PikaUserInput × PikaUserInput)).length + 1 :=
  c6_log_length_invariant true false (by simp) ⟨0, 0, 1⟩ ⟨1, 0, 0⟩
    [(⟨0, 0, 0⟩, ⟨0, 0, 0⟩)] []

/-- C10: with exactly one computer-controlled player, the snapshot recorded
for the human side merges both keyboards: directions are keyboard 1's value
when nonzero, else keyboard 2's; powerHit is the logical OR of the two
keyboards' powerHit values (given both are 0 or 1). -/
theorem c10_merged_human_input (p1c p2c : Bool) (kb1 kb2 : PikaUserInput)
    (hc : (p1c = true ∧ p2c = false) ∨ (p1c = false ∧ p2c = true))
    (hp1 : kb1.powerHit = 0 ∨ kb1.powerHit = 1)
    (hp2 : kb2.powerHit = 0 ∨ kb2.powerHit = 1) :
    recordedInput p1c p2c kb1 kb2 =
      ⟨(if kb1.xDirection = 0 then kb2.xDirection else kb1.xDirection),
       (if kb1.yDirection = 0 then kb2.yDirection else kb1.yDirection),
       (if kb1.powerHit = 1 ∨ kb2.powerHit = 1 then 1 else 0)⟩ := by
  have hph : jsOr kb1.powerHit kb2.powerHit =
      (if kb1.powerHit = 1 ∨ kb2.powerHit = 1 then (1 : Int) else 0) := by
    rcases hp1 with h1 | h1 <;> rcases hp2 with h2 | h2 <;>
      simp [jsOr, h1, h2]
  rcases hc with ⟨h1, h2⟩ | ⟨h1, h2⟩ <;> subst h1 <;> subst h2 <;>
    simp only [recordedInput, if_pos, if_neg, Bool.true_eq_false,
      Bool.false_eq_true, ite_true, ite_false, hph] <;>
    rfl

theorem c10_merged_human_input_witness :
    recordedInput true false ⟨0, -1, 1⟩ ⟨1, 1, 0⟩ =
      ⟨(if (0 : Int) = 0 then (1 : Int) else 0),
       (if (-1 : Int) = 0 then (1 : Int) else -1),
       (if (1 : Int) = 1 ∨ (0 : Int) = 1 then (1 : Int) else 0)⟩ :=
  c10_merged_human_input true false ⟨0, -1, 1⟩ ⟨1, 1, 0⟩
    (Or.inl ⟨rfl, rfl⟩) (by decide) (by decide)

/-- The round-control and player flags touched by the scoring block of
`round` (pikavolley.js lines 420-464) together with the per-match score
array and winning score from the constructor (lines 73-76). -/
structure ScoreState where
  isPlayer2Serve : Bool
  scores : Int × Int
  winningScore : Int
  gameEnded : Bool
  roundEnded : Bool
  practiceMode : Bool
  p1isWinner : Bool
  p2isWinner : Bool
  p1gameEnded : Bool
  p2gameEnded : Bool
  slowMotionFramesLeft : Nat
deriving DecidableEq, Repr

/-- Embedding of the scoring block of `round` (pikavolley.js lines
434-464), reached only when the ball touches the ground outside practice
mode with the round and game still running.  The ball strictly left of
`GROUND_HALF_WIDTH` selects the player-2 branch (player 2 serves next and
player 2's score is checked against the winning score); otherwise,
including the exact center, the player-1 branch runs.  No score is ever
incremented.  `ghw` stands for the `GROUND_HALF_WIDTH` constant imported
from physics.js. -/
def scoringStep (ghw punchEffectX : Int) (ballTouch : Bool) (s : ScoreState) :
    ScoreState :=
  if ballTouch = true ∧ s.practiceMode = false ∧ s.roundEnded = false ∧
      s.gameEnded = false then
    let s1 :=
      if punchEffectX < ghw then
        let t := { s with isPlayer2Serve := true }
        if t.winningScore ≤ t.scores.2 then
          { t with
            gameEnded := true
            p1isWinner := false
            p2isWinner := true
            p1gameEnded := true
            p2gameEnded := true }
        else t
      else
        let t := { s with isPlayer2Serve := false }
        if t.winningScore ≤ t.scores.1 then
          { t with
            gameEnded := true
            p1isWinner := true
            p2isWinner := false
            p1gameEnded := true
            p2gameEnded := true }
        else t
    let s2 := if s1.roundEnded = false ∧ s1.gameEnded = false then
        { s1 with slowMotionFramesLeft := 6 }
      else s1
    { s2 with roundEnded := true }
  else s

/-- C7 counterexample: on a scoring ground-touch strictly left of the
court's center, player 2's score is NOT incremented (it stays 0): the code
only flips the serve flag; this build keeps the score at 0 : 0, as its
README states. -/
theorem c7_counterexample :
    (scoringStep 216 0 true
        ⟨false, (0, 0), 15, false, false, false, false, false, false, false, 0⟩).scores
      = (0, 0) ∧
    (scoringStep 216 0 true
        ⟨false, (0, 0), 15, false, false, false, false, false, false, false, 0⟩).scores.2
      ≠ (0 : Int) + 1 ∧
    (scoringStep 216 0 true
        ⟨false, (0, 0), 15, false, false, false, false, false, false, false, 0⟩).isPlayer2Serve
      = true := by
  refine ⟨rfl, ?_, rfl⟩
  decide

/-- C7 amended: at a scoring ground-touch, a ball strictly left of the
court's horizontal center makes the right side (player 2) the next server,
and any other position (strictly right, or exactly at the center) makes the
left side (player 1) the next server, so the exact-center case is
deterministically assigned to the player-1 branch; the scores themselves
are never changed by the block. -/
theorem c7_scoring_boundary (ghw punchEffectX : Int) (s : ScoreState)
    (hpr : s.practiceMode = false) (hre : s.roundEnded = false)
    (hge : s.gameEnded = false) :
    (scoringStep ghw punchEffectX true s).isPlayer2Serve =
      (if punchEffectX < ghw then true else false) ∧
    (scoringStep ghw punchEffectX true s).scores = s.scores ∧
    (scoringStep ghw ghw true s).isPlayer2Serve = false := by
  refine ⟨?_, ?_, ?_⟩
  · by_cases hx : punchEffectX < ghw <;>
      by_cases h2 : s.winningScore ≤ s.scores.2 <;>
      by_cases h1 : s.winningScore ≤ s.scores.1 <;>
      simp [scoringStep, hpr, hre, hge, hx, h1, h2]
  · by_cases hx : punchEffectX < ghw <;>
      by_cases h2 : s.winningScore ≤ s.scores.2 <;>
      by_cases h1 : s.winningScore ≤ s.scores.1 <;>
      simp [scoringStep, hpr, hre, hge, hx, h1, h2]
  · by_cases h1 : s.winningScore ≤ s.scores.1 <;>
      simp [scoringStep, hpr, hre, hge, lt_irrefl, h1]

theorem c7_scoring_boundary_witness :
    (scoringStep 216 300 true
        ⟨false, (0, 0), 15, false, false, false, false, false, false, false, 0⟩).isPlayer2Serve
      = (if (300 : Int) < 216 then true else false) ∧
    (scoringStep 216 300 true
        ⟨false, (0, 0), 15, false, false, false, false, false, false, false, 0⟩).scores
      = ((0 : Int), (0 : Int)) ∧
    (scoringStep 216 216 true
        ⟨false, (0, 0), 15, false, false, false, false, false, false, false, 0⟩).isPlayer2Serve
      = false :=
  c7_scoring_boundary 216 300
    ⟨false, (0, 0), 15, false, false, false, false, false, false, false, 0⟩
    rfl rfl rfl

/-- C8: at a scoring ground-touch on which the scoring side's score has
reached the winning score (player 2's score when the ball is strictly left
of center, player 1's otherwise), the game ends with exactly one winner:
the winner flags come out (p1, p2) = (false, true) in the first case and
(true, false) in the second — never both true and never both false. -/
theorem c8_match_end (ghw punchEffectX : Int) (s : ScoreState)
    (hpr : s.practiceMode = false) (hre : s.roundEnded = false)
    (hge : s.gameEnded = false)
    (hreach : (punchEffectX < ghw ∧ s.winningScore ≤ s.scores.2) ∨
      (ghw ≤ punchEffectX ∧ s.winningScore ≤ s.scores.1)) :
    (scoringStep ghw punchEffectX true s).gameEnded = true ∧
    (scoringStep ghw punchEffectX true s).p1isWinner =
      (if punchEffectX < ghw then false else true) ∧
    (scoringStep ghw punchEffectX true s).p2isWinner =
      (if punchEffectX < ghw then true else false) := by
  rcases hreach with ⟨hx, hw⟩ | ⟨hx, hw⟩
  · simp [scoringStep, hpr, hre, hge, hx, hw]
  · have hx' : ¬punchEffectX < ghw := not_lt.mpr hx
    simp [scoringStep, hpr, hre, hge, hx', hw]

theorem c8_match_end_witness :
    (scoringStep 216 0 true
        ⟨false, (0, 15), 15, false, false, false, false, false, false, false, 0⟩).gameEnded
      = true ∧
    (scoringStep 216 0 true
        ⟨false, (0, 15), 15, false, false, false, false, false, false, false, 0⟩).p1isWinner
      = (if (0 : Int) < 216 then false else true) ∧
    (scoringStep 216 0 true
        ⟨false, (0, 15), 15, false, false, false, false, false, false, false, 0⟩).p2isWinner
      = (if (0 : Int) < 216 then true else false) :=
  c8_match_end 216 0
    ⟨false, (0, 15), 15, false, false, false, false, false, false, false, 0⟩
    rfl rfl rfl (Or.inl ⟨by decide, by decide⟩)

/-- The per-tick resolved pressed state of the five key signals consumed by
`PikaKeyboard.getInput` (keyboard.js lines 26-31); each field is already
the OR of the base key and its extra-key aliases for this tick. -/
structure KeysDown where
  leftPressed : Bool
  rightPressed : Bool
  upPressed : Bool
  downPressed : Bool
  powerHitPressed : Bool
deriving DecidableEq, Repr

/-- Embedding of `PikaKeyboard.getInput` (keyboard.js lines 26-39): from
the previous-tick power-hit key state and this tick's pressed keys, produce
the snapshot (left wins over right, up wins over down, powerHit pulses only
on a rising edge) and the updated previous-state flag. -/
def getInput (prev : Bool) (k : KeysDown) : PikaUserInput × Bool :=
  (⟨if k.leftPressed = true then -1 else if k.rightPressed = true then 1 else 0,
    if k.upPressed = true then -1 else if k.downPressed = true then 1 else 0,
    if prev = false ∧ k.powerHitPressed = true then 1 else 0⟩,
   k.powerHitPressed)

/-- Snapshots produced by calling `getInput` once per tick over a run of
ticks, threading `powerHitKeyIsDownPrevious` through (the constructor
initializes it to `false`). -/
def inputTrace : Bool → List KeysDown → List PikaUserInput
  | _, [] => []
  | prev, k :: ks => (getInput prev k).1 :: inputTrace (getInput prev k).2 ks

lemma inputTrace_powerHit :
    ∀ (keys : List KeysDown) (prev : Bool) (i : Nat), i < keys.length →
    ((inputTrace prev keys).getD i ⟨0, 0, 0⟩).powerHit =
      (if (keys.getD i ⟨false, false, false, false, false⟩).powerHitPressed = true ∧
          ((i = 0 ∧ prev = false) ∨
            (0 < i ∧
              (keys.getD (i - 1) ⟨false, false, false, false, false⟩).powerHitPressed
                = false))
        then 1 else 0) := by
  intro keys
  induction keys with
  | nil => intro prev i hi; exact absurd hi (by simp)
  | cons k ks ih =>
    intro prev i hi
    cases i with
    | zero =>
      cases prev <;> cases hk : k.powerHitPressed <;>
        simp [inputTrace, getInput, hk]
    | succ n =>
      have hn : n < ks.length := by
        rw [List.length_cons] at hi
        omega
      show ((inputTrace (getInput prev k).2 ks).getD n ⟨0, 0, 0⟩).powerHit = _
      rw [ih (getInput prev k).2 n hn]
      cases n with
      | zero =>
        cases hk : k.powerHitPressed <;> simp [getInput, hk]
      | succ m =>
        simp [getInput]

/-- C9: the powerHit field of the snapshot `getInput` produces on tick i is
1 exactly when the power-hit key is down on tick i and was not down on tick
i-1 (with the pre-first-tick state initialized to not-down), and 0 on every
other tick, however long the key is held. -/
theorem c9_powerHit_edge_trigger (keys : List KeysDown) (i : Nat)
    (hi : i < keys.length) :
    ((inputTrace false keys).getD i ⟨0, 0, 0⟩).powerHit =
      (if (keys.getD i ⟨false, false, false, false, false⟩).powerHitPressed = true ∧
          (i = 0 ∨
            (keys.getD (i - 1) ⟨false, false, false, false, false⟩).powerHitPressed
              = false)
        then 1 else 0) := by
  rw [inputTrace_powerHit keys false i hi]
  refine if_congr (and_congr_right (fun _ => ?_)) rfl rfl
  constructor
  · rintro (⟨h0, _⟩ | ⟨_, hx⟩)
    · exact Or.inl h0
    · exact Or.inr hx
  · rintro (h0 | hx)
    · exact Or.inl ⟨h0, rfl⟩
    · rcases Nat.eq_zero_or_pos i with h0 | hpos
      · exact Or.inl ⟨h0, rfl⟩
      · exact Or.inr ⟨hpos, hx⟩

theorem c9_powerHit_edge_trigger_witness :
    ((inputTrace false
        [⟨false, false, false, false, true⟩, ⟨false, false, false, false, true⟩,
         ⟨false, false, false, false, false⟩,
         ⟨false, false, false, false, true⟩]).getD 1 ⟨0, 0, 0⟩).powerHit =
      (if (([⟨false, false, false, false, true⟩, ⟨false, false, false, false, true⟩,
            ⟨false, false, false, false, false⟩,
            ⟨false, false, false, false, true⟩] : List KeysDown).getD 1
              ⟨false, false, false, false, false⟩).powerHitPressed = true ∧
          ((1 : Nat) = 0 ∨
            (([⟨false, false, false, false, true⟩, ⟨false, false, false, false, true⟩,
              ⟨false, false, false, false, false⟩,
              ⟨false, false, false, false, true⟩] : List KeysDown).getD (1 - 1)
                ⟨false, false, false, false, false⟩).powerHitPressed = false)
        then 1 else 0) :=
  c9_powerHit_edge_trigger
    [⟨false, false, false, false, true⟩, ⟨false, false, false, false, true⟩,
     ⟨false, false, false, false, false⟩, ⟨false, false, false, false, true⟩]
    1 (by decide)
